import Mathlib

/-!
Verification of the bonus-proposal service (src/Backend/server.js).

The service manages a single table `bonus_proposals` in a relational store and
exposes three operations: list, search (GET /api/bonuses/search) and create
(POST /api/bonuses).  We embed the store as a list of rows plus the SERIAL
counter, and the two interesting handlers as pure Lean functions translated
line by line from the source.  JavaScript truthiness of the request fields is
modelled explicitly: a string field is falsy when empty, a numeric field is
falsy when zero, and the date field is falsy when absent.
-/

/-- A calendar date, the value of the SQL `DATE` column `proposal_date`.
`EXTRACT(YEAR FROM d)` and `EXTRACT(MONTH FROM d)` are the projections. -/
structure Date where
  year : Nat
  month : Nat
  day : Nat
deriving DecidableEq

/-- A row of the `bonus_proposals` table (server.js lines 171-182):
`id SERIAL PRIMARY KEY`, `employee_name`, `employee_id`, `proposal_date`,
`bonus_amount INTEGER`, `reason`. -/
structure Proposal where
  id : Nat
  employee_name : String
  employee_id : String
  proposal_date : Date
  bonus_amount : Int
  reason : String
deriving DecidableEq

/-- The persisted state: the rows of `bonus_proposals` in insertion order,
together with the next value of the SERIAL `id` sequence. -/
structure Store where
  proposals : List Proposal
  nextId : Nat
deriving DecidableEq

/-- The JSON body of POST /api/bonuses (server.js line 89).  An absent or
empty date string is `none`; a present, parseable date is `some d`. -/
structure CreateReq where
  employeeName : String
  employeeID : String
  proposalDate : Option Date
  bonusAmount : Int
  reason : String
deriving DecidableEq

/-- JavaScript truthiness of an optional string query parameter:
`undefined` and the empty string are falsy. -/
def strTruthy : Option String → Bool
  | none => false
  | some s => s != ""

/-- JavaScript `s.toLowerCase() === t.toLowerCase()` (server.js lines 68 and
128): case-insensitive string equality, character-wise lowering. -/
def lcEq (s t : String) : Bool :=
  s.data.map Char.toLower == t.data.map Char.toLower

/-- The presence check of server.js line 92:
`if (!employeeName || !employeeID || !proposalDate || !bonusAmount || !reason)`.
A zero `bonusAmount` is falsy in JavaScript, hence counts as missing. -/
def fieldsPresent (r : CreateReq) : Bool :=
  r.employeeName != "" && r.employeeID != "" && r.proposalDate.isSome &&
    r.bonusAmount != 0 && r.reason != ""

/-- The regular expression `^ATS0(?!000)[0-9]{3}$` of server.js line 100:
the whole string is the literal prefix "ATS0" followed by exactly three
digits that are not the sequence "000". -/
def validEmployeeID (s : String) : Bool :=
  match s.data with
  | [p1, p2, p3, p4, a, b, c] =>
    p1 == 'A' && p2 == 'T' && p3 == 'S' && p4 == '0' &&
      a.isDigit && b.isDigit && c.isDigit && !(a == '0' && b == '0' && c == '0')
  | _ => false

/-- `EXTRACT(MONTH FROM proposal_date) = EXTRACT(MONTH FROM $2::date) AND
EXTRACT(YEAR FROM proposal_date) = EXTRACT(YEAR FROM $2::date)`
(server.js lines 109-110). -/
def sameMonth (d e : Date) : Bool :=
  d.year == e.year && d.month == e.month

/-- The month-conflict query of server.js lines 106-112: all rows with the
given `employee_id` whose `proposal_date` falls in the same calendar month
and year as `d` (no ORDER BY; rows come back in table order). -/
def monthConflicts (st : Store) (eid : String) (d : Date) : List Proposal :=
  st.proposals.filter (fun p => p.employee_id == eid && sameMonth p.proposal_date d)

/-- The name-consistency query of server.js lines 122-125:
`SELECT employee_name FROM bonus_proposals WHERE employee_id = $1 LIMIT 1`. -/
def nameCheckRow (st : Store) (eid : String) : Option Proposal :=
  (st.proposals.filter (fun p => p.employee_id == eid)).head?

/-- Errors the store can raise on an INSERT.  `uniqueViolation` is Postgres
error code 23505 from the unique index `unique_employee_per_month`
(server.js lines 185-188); `otherError` is any other failure, such as a
CHECK-constraint violation or a connectivity fault. -/
inductive DBError
  | uniqueViolation
  | otherError
deriving DecidableEq

/-- The INSERT of server.js lines 136-141 as executed by the store, which
enforces the schema of lines 171-188: the CHECK constraints
`valid_employee_id` and `valid_bonus_amount`, and the unique index over
(employee_id, year, month).  On success it returns the new row (RETURNING *)
with the next SERIAL id, appended to the table. -/
def storeInsert (st : Store) (nm eid : String) (d : Date) (amt : Int) (rsn : String) :
    Except DBError (Proposal × Store) :=
  if validEmployeeID eid = false ∨ amt < 100 then .error .otherError
  else if (monthConflicts st eid d).isEmpty then
    .ok (⟨st.nextId, nm, eid, d, amt, rsn⟩,
         ⟨st.proposals ++ [⟨st.nextId, nm, eid, d, amt, rsn⟩], st.nextId + 1⟩)
  else .error .uniqueViolation

/-- The outcome of POST /api/bonuses, one constructor per distinct response
of server.js lines 88-153. -/
inductive CreateResult
  | fieldsRequired
  | amountTooLow
  | badIdFormat
  | monthConflict (existingId : Nat) (existingName : String)
  | nameMismatch (correctName : String)
  | duplicateEntry
  | serverError
  | created (p : Proposal)
deriving DecidableEq

/-- The HTTP status attached to each create outcome (400, 500 or 201). -/
def CreateResult.status : CreateResult → Nat
  | .created _ => 201
  | .serverError => 500
  | _ => 400

/-- The catch block of server.js lines 144-152: Postgres error code 23505
(unique violation) becomes the 400 response 'Duplicate entry detected';
every other store error becomes the generic 500 response. -/
def createCatchHandler : DBError → CreateResult
  | .uniqueViolation => .duplicateEntry
  | .otherError => .serverError

/-- Step 6 of create: run the INSERT against the store state current at
insert time and translate a store rejection through the catch block. -/
def insertStep (stIns : Store) (req : CreateReq) (d : Date) : CreateResult × Store :=
  match storeInsert stIns req.employeeName req.employeeID d req.bonusAmount req.reason with
  | .ok (p, st2) => (.created p, st2)
  | .error e => (createCatchHandler e, stIns)

/-- POST /api/bonuses (server.js lines 88-153), with the read queries of
steps 4-5 executed against `stRead` and the INSERT of step 6 executed
against `stIns`.  Separating the two states expresses the check-then-act
race: a concurrent insert may commit between the month pre-check and this
request's INSERT.  The sequential handler is `create` below, where both
states coincide. -/
def createWith (stRead stIns : Store) (req : CreateReq) : CreateResult × Store :=
  if fieldsPresent req = false then (.fieldsRequired, stIns)
  else if req.bonusAmount < 100 then (.amountTooLow, stIns)
  else if validEmployeeID req.employeeID = false then (.badIdFormat, stIns)
  else
    match monthConflicts stRead req.employeeID (req.proposalDate.getD ⟨0, 0, 0⟩) with
    | p :: _ => (.monthConflict p.id p.employee_name, stIns)
    | [] =>
      match nameCheckRow stRead req.employeeID with
      | some q =>
        if lcEq q.employee_name req.employeeName then
          insertStep stIns req (req.proposalDate.getD ⟨0, 0, 0⟩)
        else (.nameMismatch q.employee_name, stIns)
      | none => insertStep stIns req (req.proposalDate.getD ⟨0, 0, 0⟩)

/-- POST /api/bonuses with no interference: all queries see one store. -/
def create (st : Store) (req : CreateReq) : CreateResult × Store :=
  createWith st st req

/-- The application-level name-consistency condition of server.js
lines 127-128: either no prior row for this employee_id exists, or its
stored name equals the submitted name case-insensitively. -/
def nameConsistent (st : Store) (req : CreateReq) : Bool :=
  match nameCheckRow st req.employeeID with
  | none => true
  | some q => lcEq q.employee_name req.employeeName

/-- `proposal_date` comparison used to model `ORDER BY proposal_date DESC`:
calendar order on (year, month, day). -/
def dateLe (d e : Date) : Bool :=
  decide (d.year < e.year ∨ (d.year = e.year ∧
    (d.month < e.month ∨ (d.month = e.month ∧ d.day ≤ e.day))))

/-- Insert a row into a list that is already in descending date order. -/
def insertByDateDesc (p : Proposal) : List Proposal → List Proposal
  | [] => [p]
  | q :: qs =>
    if dateLe q.proposal_date p.proposal_date then p :: q :: qs
    else q :: insertByDateDesc p qs

/-- `ORDER BY proposal_date DESC`: a sorted permutation of the rows. -/
def sortByDateDesc : List Proposal → List Proposal
  | [] => []
  | p :: ps => insertByDateDesc p (sortByDateDesc ps)

/-- The search query of server.js lines 56-59: all rows with the given
`employee_id`, ordered by `proposal_date` descending. -/
def searchRows (st : Store) (eid : String) : List Proposal :=
  sortByDateDesc (st.proposals.filter (fun p => p.employee_id == eid))

/-- The outcome of GET /api/bonuses/search, one constructor per distinct
response of server.js lines 48-85. -/
inductive SearchResult
  | missingID
  | notFound
  | nameMismatch (correctName : String)
  | ok (rows : List Proposal)
  | serverError
deriving DecidableEq

/-- The HTTP status attached to each search outcome. -/
def SearchResult.status : SearchResult → Nat
  | .ok _ => 200
  | .notFound => 404
  | .serverError => 500
  | _ => 400

/-- GET /api/bonuses/search (server.js lines 48-85).  `employeeID` and
`employeeName` are the query parameters, absent when `none`. -/
def search (st : Store) (employeeID employeeName : Option String) : SearchResult :=
  if strTruthy employeeID = false then .missingID
  else
    match searchRows st (employeeID.getD "") with
    | [] => .notFound
    | r0 :: rs =>
      if strTruthy employeeName then
        if ((r0 :: rs).filter
            (fun r => !lcEq r.employee_name (employeeName.getD ""))).isEmpty then
          .ok (r0 :: rs)
        else .nameMismatch r0.employee_name
      else .ok (r0 :: rs)

/-- The first sample row inserted by initializeDatabase (server.js line 196);
its id 1 is assigned by the SERIAL sequence. -/
def seedRow1 : Proposal :=
  ⟨1, "Veera Raghava", "ATS0123", ⟨2025, 4, 24⟩, 5000,
    "Bonus for good performance and exceeding quarterly targets by 15% while maintaining excellent code quality standards."⟩

/-- The second sample row inserted by initializeDatabase (server.js line 197). -/
def seedRow2 : Proposal :=
  ⟨2, "Pavan Kumar", "ATS0456", ⟨2025, 4, 20⟩, 7500,
    "Exceptional leadership in the recent product launch, coordinating between multiple teams to deliver ahead of schedule with outstanding results."⟩

/-- The store right after initializeDatabase (server.js lines 156-216): the
freshly created empty table seeded with the two sample rows. -/
def seedStore : Store :=
  { proposals := [seedRow1, seedRow2], nextId := 3 }

/-- The states the store can be in: the seeded initial state, followed by
any number of create operations (the only mutating handler). -/
inductive Reachable : Store → Prop
  | init : Reachable seedStore
  | step (st : Store) (req : CreateReq) : Reachable st → Reachable (create st req).2

/-- At most one proposal per (employee_id, calendar year, calendar month):
any two distinct rows with the same employee_id lie in different months. -/
def monthlyUnique (l : List Proposal) : Prop :=
  l.Pairwise (fun p q => p.employee_id = q.employee_id →
    sameMonth p.proposal_date q.proposal_date = false)

/-- A row list in descending `proposal_date` order, as produced by
`ORDER BY proposal_date DESC`. -/
def DescSorted (l : List Proposal) : Prop :=
  l.Pairwise (fun p q => dateLe q.proposal_date p.proposal_date = true)

theorem createWith_fieldsMissing (stR stI : Store) (req : CreateReq)
    (h : fieldsPresent req = false) :
    createWith stR stI req = (.fieldsRequired, stI) := by
  simp [createWith, h]

theorem createWith_amountLow (stR stI : Store) (req : CreateReq)
    (h1 : fieldsPresent req = true) (h2 : req.bonusAmount < 100) :
    createWith stR stI req = (.amountTooLow, stI) := by
  simp [createWith, h1, h2]

theorem createWith_badId (stR stI : Store) (req : CreateReq)
    (h1 : fieldsPresent req = true) (h2 : ¬ req.bonusAmount < 100)
    (h3 : validEmployeeID req.employeeID = false) :
    createWith stR stI req = (.badIdFormat, stI) := by
  simp [createWith, h1, h2, h3]

theorem createWith_monthConflict (stR stI : Store) (req : CreateReq) (d : Date)
    (p : Proposal) (ps : List Proposal)
    (h1 : fieldsPresent req = true) (h2 : ¬ req.bonusAmount < 100)
    (h3 : validEmployeeID req.employeeID = true) (hd : req.proposalDate = some d)
    (hm : monthConflicts stR req.employeeID d = p :: ps) :
    createWith stR stI req = (.monthConflict p.id p.employee_name, stI) := by
  simp [createWith, h1, h2, h3, hd, hm]

theorem createWith_nameMismatch (stR stI : Store) (req : CreateReq) (d : Date)
    (q : Proposal)
    (h1 : fieldsPresent req = true) (h2 : ¬ req.bonusAmount < 100)
    (h3 : validEmployeeID req.employeeID = true) (hd : req.proposalDate = some d)
    (hm : monthConflicts stR req.employeeID d = [])
    (hq : nameCheckRow stR req.employeeID = some q)
    (hne : lcEq q.employee_name req.employeeName = false) :
    createWith stR stI req = (.nameMismatch q.employee_name, stI) := by
  simp [createWith, h1, h2, h3, hd, hm, hq, hne]

theorem createWith_insert (stR stI : Store) (req : CreateReq) (d : Date)
    (h1 : fieldsPresent req = true) (h2 : ¬ req.bonusAmount < 100)
    (h3 : validEmployeeID req.employeeID = true) (hd : req.proposalDate = some d)
    (hm : monthConflicts stR req.employeeID d = [])
    (hnc : nameConsistent stR req = true) :
    createWith stR stI req = insertStep stI req d := by
  unfold nameConsistent at hnc
  cases hq : nameCheckRow stR req.employeeID with
  | none => simp [createWith, h1, h2, h3, hd, hm, hq]
  | some q =>
    rw [hq] at hnc
    have hnc' : lcEq q.employee_name req.employeeName = true := hnc
    simp [createWith, h1, h2, h3, hd, hm, hq, hnc']

theorem insertStep_ok (stI : Store) (req : CreateReq) (d : Date)
    (h3 : validEmployeeID req.employeeID = true) (h2 : ¬ req.bonusAmount < 100)
    (hm : monthConflicts stI req.employeeID d = []) :
    insertStep stI req d =
      (.created ⟨stI.nextId, req.employeeName, req.employeeID, d, req.bonusAmount, req.reason⟩,
       ⟨stI.proposals ++
          [⟨stI.nextId, req.employeeName, req.employeeID, d, req.bonusAmount, req.reason⟩],
        stI.nextId + 1⟩) := by
  simp [insertStep, storeInsert, h3, h2, hm]

theorem insertStep_duplicate (stI : Store) (req : CreateReq) (d : Date)
    (h3 : validEmployeeID req.employeeID = true) (h2 : ¬ req.bonusAmount < 100)
    (hm : monthConflicts stI req.employeeID d ≠ []) :
    insertStep stI req d = (.duplicateEntry, stI) := by
  have hne : (monthConflicts stI req.employeeID d).isEmpty = false := by
    cases hl : monthConflicts stI req.employeeID d with
    | nil => exact absurd hl hm
    | cons a as => rfl
  simp [insertStep, storeInsert, h3, h2, hne, createCatchHandler]

theorem fieldsPresent_date (req : CreateReq) (h : fieldsPresent req = true) :
    ∃ d, req.proposalDate = some d := by
  unfold fieldsPresent at h
  simp only [Bool.and_eq_true] at h
  exact Option.isSome_iff_exists.mp h.1.1.2

/-- Every run of create either leaves the store untouched, or appends exactly
the submitted row with the next SERIAL id, and only after the month
pre-check found no conflict. -/
theorem create_snd_cases (st : Store) (req : CreateReq) :
    (create st req).2 = st ∨
    ∃ d, req.proposalDate = some d ∧
      validEmployeeID req.employeeID = true ∧ ¬ req.bonusAmount < 100 ∧
      monthConflicts st req.employeeID d = [] ∧
      (create st req).1 =
        .created ⟨st.nextId, req.employeeName, req.employeeID, d, req.bonusAmount, req.reason⟩ ∧
      (create st req).2 =
        ⟨st.proposals ++
           [⟨st.nextId, req.employeeName, req.employeeID, d, req.bonusAmount, req.reason⟩],
         st.nextId + 1⟩ := by
  by_cases h1 : fieldsPresent req = false
  · left; rw [create, createWith_fieldsMissing _ _ _ h1]
  · have h1' : fieldsPresent req = true := by
      cases h : fieldsPresent req with
      | false => exact absurd h h1
      | true => rfl
    obtain ⟨d, hd⟩ := fieldsPresent_date req h1'
    by_cases h2 : req.bonusAmount < 100
    · left; rw [create, createWith_amountLow _ _ _ h1' h2]
    by_cases h3 : validEmployeeID req.employeeID = false
    · left; rw [create, createWith_badId _ _ _ h1' h2 h3]
    have h3' : validEmployeeID req.employeeID = true := by
      cases h : validEmployeeID req.employeeID with
      | false => exact absurd h h3
      | true => rfl
    cases hm : monthConflicts st req.employeeID d with
    | cons p ps =>
      left; rw [create, createWith_monthConflict _ _ _ d p ps h1' h2 h3' hd hm]
    | nil =>
      by_cases hnc : nameConsistent st req = true
      · right
        refine ⟨d, hd, h3', h2, hm, ?_, ?_⟩ <;>
          rw [create, createWith_insert _ _ _ d h1' h2 h3' hd hm hnc,
              insertStep_ok _ _ _ h3' h2 hm]
      · left
        unfold nameConsistent at hnc
        cases hq : nameCheckRow st req.employeeID with
        | none => rw [hq] at hnc; exact absurd rfl hnc
        | some q =>
          rw [hq] at hnc
          have hne : lcEq q.employee_name req.employeeName = false := by
            cases h : lcEq q.employee_name req.employeeName with
            | false => rfl
            | true => exact absurd h hnc
          rw [create, createWith_nameMismatch _ _ _ d q h1' h2 h3' hd hm hq hne]

theorem dateLe_total (d e : Date) : dateLe d e = true ∨ dateLe e d = true := by
  simp only [dateLe, decide_eq_true_eq]
  omega

theorem dateLe_trans (d e f : Date) (h1 : dateLe d e = true) (h2 : dateLe e f = true) :
    dateLe d f = true := by
  simp only [dateLe, decide_eq_true_eq] at h1 h2 ⊢
  omega

theorem insertByDateDesc_perm (p : Proposal) (l : List Proposal) :
    List.Perm (insertByDateDesc p l) (p :: l) := by
  induction l with
  | nil => simp [insertByDateDesc]
  | cons q qs ih =>
    unfold insertByDateDesc
    split
    · exact List.Perm.refl _
    · exact (List.Perm.cons q ih).trans (List.Perm.swap p q qs)

theorem sortByDateDesc_perm (l : List Proposal) : List.Perm (sortByDateDesc l) l := by
  induction l with
  | nil => exact List.Perm.refl _
  | cons p ps ih =>
    exact (insertByDateDesc_perm p (sortByDateDesc ps)).trans (List.Perm.cons p ih)

theorem insertByDateDesc_sorted (p : Proposal) (l : List Proposal) (hl : DescSorted l) :
    DescSorted (insertByDateDesc p l) := by
  induction l with
  | nil =>
    unfold insertByDateDesc DescSorted
    exact List.pairwise_singleton _ _
  | cons q qs ih =>
    unfold DescSorted at hl
    rw [List.pairwise_cons] at hl
    obtain ⟨hq, hqs⟩ := hl
    unfold insertByDateDesc DescSorted
    split
    next hle =>
      rw [List.pairwise_cons]
      refine ⟨?_, List.Pairwise.cons hq hqs⟩
      intro r hr
      rcases List.mem_cons.mp hr with heq | hmem
      · subst heq; exact hle
      · exact dateLe_trans _ _ _ (hq r hmem) hle
    next hle =>
      rw [List.pairwise_cons]
      refine ⟨?_, ih hqs⟩
      intro r hr
      rcases List.mem_cons.mp ((insertByDateDesc_perm p qs).mem_iff.mp hr) with heq | hmem
      · rw [heq]
        rcases dateLe_total p.proposal_date q.proposal_date with h' | h'
        · exact h'
        · exact absurd h' hle
      · exact hq r hmem

theorem sortByDateDesc_sorted (l : List Proposal) : DescSorted (sortByDateDesc l) := by
  induction l with
  | nil => exact List.Pairwise.nil
  | cons p ps ih => exact insertByDateDesc_sorted p _ ih

theorem searchRows_perm (st : Store) (eid : String) :
    List.Perm (searchRows st eid)
      (st.proposals.filter (fun p => p.employee_id == eid)) :=
  sortByDateDesc_perm _

theorem searchRows_sorted (st : Store) (eid : String) : DescSorted (searchRows st eid) :=
  sortByDateDesc_sorted _

theorem search_missingID (st : Store) (eidO nmO : Option String)
    (h : strTruthy eidO = false) : search st eidO nmO = .missingID := by
  simp [search, h]

theorem search_notFound (st : Store) (eidO nmO : Option String)
    (he : strTruthy eidO = true) (h : searchRows st (eidO.getD "") = []) :
    search st eidO nmO = .notFound := by
  simp [search, he, h]

theorem search_mismatch (st : Store) (eidO nmO : Option String)
    (r0 : Proposal) (rs : List Proposal)
    (he : strTruthy eidO = true) (hr : searchRows st (eidO.getD "") = r0 :: rs)
    (hn : strTruthy nmO = true)
    (hmm : ((r0 :: rs).filter
        (fun r => !lcEq r.employee_name (nmO.getD ""))).isEmpty = false) :
    search st eidO nmO = .nameMismatch r0.employee_name := by
  simp [search, he, hr, hn, hmm]

theorem search_ok_matched (st : Store) (eidO nmO : Option String)
    (r0 : Proposal) (rs : List Proposal)
    (he : strTruthy eidO = true) (hr : searchRows st (eidO.getD "") = r0 :: rs)
    (hn : strTruthy nmO = true)
    (hmm : ((r0 :: rs).filter
        (fun r => !lcEq r.employee_name (nmO.getD ""))).isEmpty = true) :
    search st eidO nmO = .ok (r0 :: rs) := by
  simp [search, he, hr, hn, hmm]

theorem search_ok_noName (st : Store) (eidO nmO : Option String)
    (r0 : Proposal) (rs : List Proposal)
    (he : strTruthy eidO = true) (hr : searchRows st (eidO.getD "") = r0 :: rs)
    (hn : strTruthy nmO = false) :
    search st eidO nmO = .ok (r0 :: rs) := by
  simp [search, he, hr, hn]

theorem monthlyUnique_create (st : Store) (req : CreateReq)
    (h : monthlyUnique st.proposals) : monthlyUnique ((create st req).2).proposals := by
  rcases create_snd_cases st req with heq | ⟨d, hd, h3, h2, hm, hres, heq⟩
  · rw [heq]; exact h
  · rw [heq]
    unfold monthlyUnique at h ⊢
    rw [List.pairwise_append]
    refine ⟨h, List.pairwise_singleton _ _, ?_⟩
    intro p hp p' hp' heid
    simp only [List.mem_singleton] at hp'
    subst hp'
    have hf := List.filter_eq_nil_iff.mp hm p hp
    have heq' : p.employee_id = req.employeeID := heid
    show sameMonth p.proposal_date d = false
    cases hb : sameMonth p.proposal_date d with
    | false => rfl
    | true => exact absurd (by simp [heq', hb]) hf

theorem reachable_monthlyUnique (st : Store) (h : Reachable st) :
    monthlyUnique st.proposals := by
  induction h with
  | init =>
    unfold monthlyUnique seedStore
    refine List.Pairwise.cons ?_ (List.pairwise_singleton _ _)
    intro q hq heid
    simp only [List.mem_singleton] at hq
    subst hq
    exact absurd heid (by decide)
  | step st req hst ih => exact monthlyUnique_create st req ih

/-- The employee-id format exactly as the spec words it (for comparison with
the implementation's `validEmployeeID`): literal prefix "ATS0", followed by
exactly three digits, excluding the literal sequence "000". -/
def specEmployeeID (s : String) : Prop :=
  ∃ a b c : Char, s.data = ['A', 'T', 'S', '0', a, b, c] ∧
    a.isDigit ∧ b.isDigit ∧ c.isDigit ∧ ¬(a = '0' ∧ b = '0' ∧ c = '0')

theorem validEmployeeID_iff (s : String) :
    validEmployeeID s = true ↔ specEmployeeID s := by
  unfold validEmployeeID specEmployeeID
  constructor
  · intro h
    split at h
    next p1 p2 p3 p4 a b c heq =>
      simp only [Bool.and_eq_true, beq_iff_eq, Bool.not_eq_true'] at h
      obtain ⟨⟨⟨⟨⟨⟨⟨h1, h2⟩, h3⟩, h4⟩, h5⟩, h6⟩, h7⟩, h8⟩ := h
      refine ⟨a, b, c, ?_, h5, h6, h7, ?_⟩
      · rw [heq, h1, h2, h3, h4]
      · rintro ⟨ha, hb, hc⟩
        rw [ha, hb, hc] at h8
        simp at h8
    next => exact absurd h (by simp)
  · rintro ⟨a, b, c, hdata, ha, hb, hc, hn⟩
    split
    next p1 p2 p3 p4 a' b' c' heq =>
      rw [hdata] at heq
      injection heq with e1 heq; injection heq with e2 heq; injection heq with e3 heq
      injection heq with e4 heq; injection heq with e5 heq; injection heq with e6 heq
      injection heq with e7 _
      subst e1; subst e2; subst e3; subst e4; subst e5; subst e6; subst e7
      have h0 : (a == '0' && b == '0' && c == '0') = false := by
        cases h0 : (a == '0' && b == '0' && c == '0') with
        | false => rfl
        | true =>
          simp only [Bool.and_eq_true, beq_iff_eq] at h0
          exact absurd ⟨h0.1.1, h0.1.2, h0.2⟩ hn
      simp [ha, hb, hc, h0]
    next hno =>
      exact absurd hdata (hno 'A' 'T' 'S' '0' a b c)

theorem create_fst_amountTooLow_iff (st : Store) (req : CreateReq) :
    (create st req).1 = .amountTooLow ↔
      fieldsPresent req = true ∧ req.bonusAmount < 100 := by
  constructor
  · intro h
    by_cases h1 : fieldsPresent req = false
    · rw [create, createWith_fieldsMissing _ _ _ h1] at h
      exact CreateResult.noConfusion h
    · have h1' : fieldsPresent req = true := by
        cases hb : fieldsPresent req with
        | false => exact absurd hb h1
        | true => rfl
      by_cases h2 : req.bonusAmount < 100
      · exact ⟨h1', h2⟩
      obtain ⟨d, hd⟩ := fieldsPresent_date req h1'
      by_cases h3 : validEmployeeID req.employeeID = false
      · rw [create, createWith_badId _ _ _ h1' h2 h3] at h
        exact CreateResult.noConfusion h
      have h3' : validEmployeeID req.employeeID = true := by
        cases hb : validEmployeeID req.employeeID with
        | false => exact absurd hb h3
        | true => rfl
      cases hm : monthConflicts st req.employeeID d with
      | cons p ps =>
        rw [create, createWith_monthConflict _ _ _ d p ps h1' h2 h3' hd hm] at h
        exact CreateResult.noConfusion h
      | nil =>
        by_cases hnc : nameConsistent st req = true
        · rw [create, createWith_insert _ _ _ d h1' h2 h3' hd hm hnc,
              insertStep_ok _ _ _ h3' h2 hm] at h
          exact CreateResult.noConfusion h
        · unfold nameConsistent at hnc
          cases hq : nameCheckRow st req.employeeID with
          | none => rw [hq] at hnc; exact absurd rfl hnc
          | some q =>
            rw [hq] at hnc
            have hne : lcEq q.employee_name req.employeeName = false := by
              cases hb : lcEq q.employee_name req.employeeName with
              | false => rfl
              | true => exact absurd hb hnc
            rw [create, createWith_nameMismatch _ _ _ d q h1' h2 h3' hd hm hq hne] at h
            exact CreateResult.noConfusion h
  · rintro ⟨h1, h2⟩
    rw [create, createWith_amountLow _ _ _ h1 h2]

theorem dateLe_refl (d : Date) : dateLe d d = true := by
  simp [dateLe]

theorem create_fst_badIdFormat_iff (st : Store) (req : CreateReq) :
    (create st req).1 = .badIdFormat ↔
      fieldsPresent req = true ∧ ¬ req.bonusAmount < 100 ∧
        validEmployeeID req.employeeID = false := by
  constructor
  · intro h
    by_cases h1 : fieldsPresent req = false
    · rw [create, createWith_fieldsMissing _ _ _ h1] at h
      exact CreateResult.noConfusion h
    · have h1' : fieldsPresent req = true := by
        cases hb : fieldsPresent req with
        | false => exact absurd hb h1
        | true => rfl
      by_cases h2 : req.bonusAmount < 100
      · rw [create, createWith_amountLow _ _ _ h1' h2] at h
        exact CreateResult.noConfusion h
      obtain ⟨d, hd⟩ := fieldsPresent_date req h1'
      by_cases h3 : validEmployeeID req.employeeID = false
      · exact ⟨h1', h2, h3⟩
      have h3' : validEmployeeID req.employeeID = true := by
        cases hb : validEmployeeID req.employeeID with
        | false => exact absurd hb h3
        | true => rfl
      cases hm : monthConflicts st req.employeeID d with
      | cons p ps =>
        rw [create, createWith_monthConflict _ _ _ d p ps h1' h2 h3' hd hm] at h
        exact CreateResult.noConfusion h
      | nil =>
        by_cases hnc : nameConsistent st req = true
        · rw [create, createWith_insert _ _ _ d h1' h2 h3' hd hm hnc,
              insertStep_ok _ _ _ h3' h2 hm] at h
          exact CreateResult.noConfusion h
        · unfold nameConsistent at hnc
          cases hq : nameCheckRow st req.employeeID with
          | none => rw [hq] at hnc; exact absurd rfl hnc
          | some q =>
            rw [hq] at hnc
            have hne : lcEq q.employee_name req.employeeName = false := by
              cases hb : lcEq q.employee_name req.employeeName with
              | false => rfl
              | true => exact absurd hb hnc
            rw [create, createWith_nameMismatch _ _ _ d q h1' h2 h3' hd hm hq hne] at h
            exact CreateResult.noConfusion h
  · rintro ⟨h1, h2, h3⟩
    rw [create, createWith_badId _ _ _ h1 h2 h3]

/-- C2: create applies its validation checks in a fixed order, each a
precondition for the next: (1) all five fields present and non-empty, else
the fields-required client error; (2) bonusAmount at least 100; (3)
employeeID matches the required pattern; (4) no same-month conflict; (5)
name consistency; only then (6) the insert.  The first failing check in
this order determines the response, no later check or the insert runs, and
the store is unchanged on every failure. -/
theorem create_validation_order (st : Store) (req : CreateReq) :
    (fieldsPresent req = false → create st req = (.fieldsRequired, st))
  ∧ (fieldsPresent req = true → req.bonusAmount < 100 →
      create st req = (.amountTooLow, st))
  ∧ (fieldsPresent req = true → ¬ req.bonusAmount < 100 →
      validEmployeeID req.employeeID = false → create st req = (.badIdFormat, st))
  ∧ (∀ d p ps, fieldsPresent req = true → ¬ req.bonusAmount < 100 →
      validEmployeeID req.employeeID = true → req.proposalDate = some d →
      monthConflicts st req.employeeID d = p :: ps →
      create st req = (.monthConflict p.id p.employee_name, st))
  ∧ (∀ d q, fieldsPresent req = true → ¬ req.bonusAmount < 100 →
      validEmployeeID req.employeeID = true → req.proposalDate = some d →
      monthConflicts st req.employeeID d = [] →
      nameCheckRow st req.employeeID = some q →
      lcEq q.employee_name req.employeeName = false →
      create st req = (.nameMismatch q.employee_name, st))
  ∧ (∀ d, fieldsPresent req = true → ¬ req.bonusAmount < 100 →
      validEmployeeID req.employeeID = true → req.proposalDate = some d →
      monthConflicts st req.employeeID d = [] → nameConsistent st req = true →
      create st req =
        (.created ⟨st.nextId, req.employeeName, req.employeeID, d,
           req.bonusAmount, req.reason⟩,
         ⟨st.proposals ++
            [⟨st.nextId, req.employeeName, req.employeeID, d,
              req.bonusAmount, req.reason⟩],
          st.nextId + 1⟩)) := by
  refine ⟨fun h1 => createWith_fieldsMissing st st req h1,
    fun h1 h2 => createWith_amountLow st st req h1 h2,
    fun h1 h2 h3 => createWith_badId st st req h1 h2 h3,
    fun d p ps h1 h2 h3 hd hm => createWith_monthConflict st st req d p ps h1 h2 h3 hd hm,
    fun d q h1 h2 h3 hd hm hq hne => createWith_nameMismatch st st req d q h1 h2 h3 hd hm hq hne,
    fun d h1 h2 h3 hd hm hnc => ?_⟩
  rw [create, createWith_insert st st req d h1 h2 h3 hd hm hnc,
      insertStep_ok st req d h3 h2 hm]

/-- C2 witness: the first three checks firing at concrete inputs, each
leaving the seeded store unchanged. -/
theorem create_validation_order_witness :
    fieldsPresent ⟨"New Person", "ATS0789", some ⟨2025, 6, 1⟩, 500, ""⟩ = false ∧
    create seedStore ⟨"New Person", "ATS0789", some ⟨2025, 6, 1⟩, 500, ""⟩ =
      (.fieldsRequired, seedStore) ∧
    create seedStore ⟨"New Person", "ATS0789", some ⟨2025, 6, 1⟩, 50, "great work"⟩ =
      (.amountTooLow, seedStore) ∧
    create seedStore ⟨"New Person", "ATS0000", some ⟨2025, 6, 1⟩, 500, "great work"⟩ =
      (.badIdFormat, seedStore) :=
  ⟨by decide,
   (create_validation_order seedStore _).1 (by decide),
   (create_validation_order seedStore _).2.1 (by decide) (by decide),
   (create_validation_order seedStore _).2.2.1 (by decide) (by decide) (by decide)⟩

/-- C3: a submitted employeeID passes the format check exactly when it
matches ^ATS0(?!000)[0-9]\x7b3\x7d$ — literal prefix "ATS0" followed by three
digits that are not "000"; "ATS0123" passes while "ATS0000", "ATS012" and
"XTS0123" are rejected, and the format failure is reported as a 400 client
error exactly when the presence and amount checks passed first. -/
theorem employeeID_format_rule :
    (∀ s : String, validEmployeeID s = true ↔ specEmployeeID s)
  ∧ validEmployeeID "ATS0123" = true
  ∧ validEmployeeID "ATS0000" = false
  ∧ validEmployeeID "ATS012" = false
  ∧ validEmployeeID "XTS0123" = false
  ∧ (∀ st req, (create st req).1 = .badIdFormat ↔
      fieldsPresent req = true ∧ ¬ req.bonusAmount < 100 ∧
        validEmployeeID req.employeeID = false)
  ∧ CreateResult.badIdFormat.status = 400 :=
  ⟨validEmployeeID_iff, by decide, by decide, by decide, by decide,
   create_fst_badIdFormat_iff, rfl⟩

/-- C3 witness: the format characterization evaluated at "ATS0123" and the
format rejection of "XTS0123" at a concrete create. -/
theorem employeeID_format_rule_witness :
    specEmployeeID "ATS0123" ∧
    (create seedStore ⟨"New Person", "XTS0123", some ⟨2025, 6, 1⟩, 500, "great work"⟩).1 =
      .badIdFormat :=
  ⟨(employeeID_format_rule.1 "ATS0123").mp (by decide),
   (employeeID_format_rule.2.2.2.2.2.1 seedStore _).mpr ⟨by decide, by decide, by decide⟩⟩

/-- C4: every create with bonusAmount below 100 fails with a 400 client
error and never creates a record; a create with bonusAmount exactly 100,
all other validations passing, succeeds. -/
theorem minimum_amount_rule :
    (∀ st req, req.bonusAmount < 100 →
      (create st req).1.status = 400 ∧ ∀ p, (create st req).1 ≠ .created p)
  ∧ (∀ st req d, req.bonusAmount = 100 → fieldsPresent req = true →
      validEmployeeID req.employeeID = true → req.proposalDate = some d →
      monthConflicts st req.employeeID d = [] → nameConsistent st req = true →
      (create st req).1 =
        .created ⟨st.nextId, req.employeeName, req.employeeID, d, 100, req.reason⟩ ∧
      (create st req).1.status = 201) := by
  constructor
  · intro st req h2
    by_cases h1 : fieldsPresent req = false
    · rw [create, createWith_fieldsMissing st st req h1]
      exact ⟨rfl, fun p h => CreateResult.noConfusion h⟩
    · have h1' : fieldsPresent req = true := by
        cases hb : fieldsPresent req with
        | false => exact absurd hb h1
        | true => rfl
      rw [create, createWith_amountLow st st req h1' h2]
      exact ⟨rfl, fun p h => CreateResult.noConfusion h⟩
  · intro st req d h100 h1 h3 hd hm hnc
    have h2 : ¬ req.bonusAmount < 100 := by rw [h100]; omega
    have hc := createWith_insert st st req d h1 h2 h3 hd hm hnc
    rw [create, hc, insertStep_ok st req d h3 h2 hm, h100]
    exact ⟨rfl, rfl⟩

/-- C4 witness: amount -5 rejected with a 400, amount exactly 100 accepted,
both at the seeded store. -/
theorem minimum_amount_rule_witness :
    ((-5 : Int) < 100 ∧
      (create seedStore ⟨"New Person", "ATS0789", some ⟨2025, 6, 1⟩, -5, "great work"⟩).1.status
        = 400)
  ∧ (create seedStore ⟨"New Person", "ATS0789", some ⟨2025, 6, 1⟩, 100, "great work"⟩).1 =
      .created ⟨3, "New Person", "ATS0789", ⟨2025, 6, 1⟩, 100, "great work"⟩ :=
  ⟨⟨by decide, (minimum_amount_rule.1 seedStore _ (by decide)).1⟩,
   (minimum_amount_rule.2 seedStore _ ⟨2025, 6, 1⟩ rfl (by decide) (by decide) rfl
      (by decide) (by decide)).1⟩

/-- C5: every create that passes all validation and conflict checks returns
201 with a record whose employee_name, employee_id, proposal_date,
bonus_amount and reason equal the submitted input, plus the id newly
assigned by the store's serial sequence, and that record is appended to the
store. -/
theorem create_success_response (st : Store) (req : CreateReq) (d : Date)
    (h1 : fieldsPresent req = true) (h2 : ¬ req.bonusAmount < 100)
    (h3 : validEmployeeID req.employeeID = true) (hd : req.proposalDate = some d)
    (hm : monthConflicts st req.employeeID d = [])
    (hnc : nameConsistent st req = true) :
    ∃ p, create st req = (.created p, ⟨st.proposals ++ [p], st.nextId + 1⟩) ∧
      (create st req).1.status = 201 ∧
      p.employee_name = req.employeeName ∧ p.employee_id = req.employeeID ∧
      p.proposal_date = d ∧ p.bonus_amount = req.bonusAmount ∧
      p.reason = req.reason ∧ p.id = st.nextId := by
  have hc : create st req =
      (.created ⟨st.nextId, req.employeeName, req.employeeID, d,
         req.bonusAmount, req.reason⟩,
       ⟨st.proposals ++
          [⟨st.nextId, req.employeeName, req.employeeID, d, req.bonusAmount, req.reason⟩],
        st.nextId + 1⟩) := by
    rw [create, createWith_insert st st req d h1 h2 h3 hd hm hnc,
        insertStep_ok st req d h3 h2 hm]
  exact ⟨_, hc, by rw [hc]; rfl, rfl, rfl, rfl, rfl, rfl, rfl⟩

/-- C5 witness: a fully valid create against the seeded store echoes the
submitted fields with the fresh id 3. -/
theorem create_success_response_witness :
    ∃ p, create seedStore ⟨"New Person", "ATS0789", some ⟨2025, 6, 1⟩, 500, "great work"⟩ =
        (.created p, ⟨seedStore.proposals ++ [p], seedStore.nextId + 1⟩) ∧
      (create seedStore ⟨"New Person", "ATS0789", some ⟨2025, 6, 1⟩, 500, "great work"⟩).1.status
        = 201 ∧
      p.employee_name = "New Person" ∧ p.employee_id = "ATS0789" ∧
      p.proposal_date = ⟨2025, 6, 1⟩ ∧ p.bonus_amount = 500 ∧
      p.reason = "great work" ∧ p.id = seedStore.nextId :=
  create_success_response seedStore _ ⟨2025, 6, 1⟩ (by decide) (by decide) (by decide) rfl
    (by decide) (by decide)

/-- C9: a create that does not answer 201 leaves the persisted store exactly
as it was; whenever the store changes, the change is precisely the append
of the single created record with the advanced serial counter. -/
theorem create_frame_effect (st : Store) (req : CreateReq) :
    ((create st req).1.status ≠ 201 → (create st req).2 = st)
  ∧ ((create st req).2 ≠ st →
      ∃ p, (create st req).1 = .created p ∧
        (create st req).2 = ⟨st.proposals ++ [p], st.nextId + 1⟩) := by
  rcases create_snd_cases st req with heq | ⟨d, hd, h3, h2, hm, hres, heq⟩
  · exact ⟨fun _ => heq, fun hne => absurd heq hne⟩
  · constructor
    · intro hs
      rw [hres] at hs
      exact absurd rfl hs
    · intro _
      exact ⟨_, hres, heq⟩

/-- C9 witness: a same-month conflict create answers 400 and leaves the
seeded store untouched. -/
theorem create_frame_effect_witness :
    (create seedStore ⟨"Veera Raghava", "ATS0123", some ⟨2025, 4, 28⟩, 500, "again"⟩).1.status
      ≠ 201 ∧
    (create seedStore ⟨"Veera Raghava", "ATS0123", some ⟨2025, 4, 28⟩, 500, "again"⟩).2 =
      seedStore :=
  ⟨by decide, (create_frame_effect seedStore _).1 (by decide)⟩

/-- C1 counterexample: against the seeded store, whose only ATS0123 proposal
lies in April 2025, a May 2025 create for ATS0123 passes the month-conflict
check yet does not succeed: it fails the name-consistency check, refuting
the claim that a create whose employee has proposals only in other months
succeeds. -/
theorem create_monthly_uniqueness_cex :
    (∀ p ∈ seedStore.proposals, p.employee_id = "ATS0123" →
        sameMonth p.proposal_date ⟨2025, 5, 10⟩ = false)
  ∧ (create seedStore ⟨"Someone Else", "ATS0123", some ⟨2025, 5, 10⟩, 500, "teamwork"⟩).1 =
      .nameMismatch "Veera Raghava"
  ∧ (create seedStore ⟨"Someone Else", "ATS0123", some ⟨2025, 5, 10⟩, 500, "teamwork"⟩).1.status
      ≠ 201 :=
  ⟨by decide, by decide, by decide⟩

/-- C1 (amended): a create whose employee already has a proposal in the same
calendar year and month fails with a 400 reporting the conflicting record's
id and stored name, regardless of day-of-month, and inserts nothing; if the
employee's proposals all lie in other months the month-conflict check
passes and — provided the name-consistency check also passes — the create
succeeds; and every reachable store state holds at most one proposal per
(employee_id, year, month). -/
theorem create_monthly_uniqueness :
    (∀ st req d p ps, req.proposalDate = some d → fieldsPresent req = true →
        ¬ req.bonusAmount < 100 → validEmployeeID req.employeeID = true →
        monthConflicts st req.employeeID d = p :: ps →
        create st req = (.monthConflict p.id p.employee_name, st) ∧
          (create st req).1.status = 400)
  ∧ (∀ st req d, req.proposalDate = some d → fieldsPresent req = true →
        ¬ req.bonusAmount < 100 → validEmployeeID req.employeeID = true →
        monthConflicts st req.employeeID d = [] → nameConsistent st req = true →
        create st req =
          (.created ⟨st.nextId, req.employeeName, req.employeeID, d,
             req.bonusAmount, req.reason⟩,
           ⟨st.proposals ++
              [⟨st.nextId, req.employeeName, req.employeeID, d,
                req.bonusAmount, req.reason⟩],
            st.nextId + 1⟩))
  ∧ (∀ st, Reachable st → monthlyUnique st.proposals) := by
  refine ⟨?_, ?_, reachable_monthlyUnique⟩
  · intro st req d p ps hd h1 h2 h3 hm
    have hc := createWith_monthConflict st st req d p ps h1 h2 h3 hd hm
    exact ⟨hc, by rw [create, hc]; rfl⟩
  · intro st req d hd h1 h2 h3 hm hnc
    rw [create, createWith_insert st st req d h1 h2 h3 hd hm hnc,
        insertStep_ok st req d h3 h2 hm]

/-- C1 witness: a second April submission for ATS0123 is rejected with the
conflicting record regardless of its day, a May submission succeeds, and the
seeded initial state satisfies monthly uniqueness. -/
theorem create_monthly_uniqueness_witness :
    create seedStore ⟨"Veera Raghava", "ATS0123", some ⟨2025, 4, 28⟩, 500, "again"⟩ =
      (.monthConflict 1 "Veera Raghava", seedStore) ∧
    create seedStore ⟨"Veera Raghava", "ATS0123", some ⟨2025, 5, 10⟩, 500, "again"⟩ =
      (.created ⟨3, "Veera Raghava", "ATS0123", ⟨2025, 5, 10⟩, 500, "again"⟩,
       ⟨seedStore.proposals ++
          [⟨3, "Veera Raghava", "ATS0123", ⟨2025, 5, 10⟩, 500, "again"⟩], 4⟩) ∧
    monthlyUnique seedStore.proposals :=
  ⟨(create_monthly_uniqueness.1 seedStore _ ⟨2025, 4, 28⟩ seedRow1 [] rfl (by decide)
      (by decide) (by decide) (by decide)).1,
   create_monthly_uniqueness.2.1 seedStore _ ⟨2025, 5, 10⟩ rfl (by decide) (by decide)
     (by decide) (by decide) (by decide),
   create_monthly_uniqueness.2.2 seedStore Reachable.init⟩

/-- C6: the catch block turns the store's uniqueness-violation rejection of
the step-6 INSERT into the 400 duplicate-entry client error, turns every
other store error into the generic 500, and a raced create — whose
month pre-check saw no conflict but whose INSERT runs against a store that
meanwhile gained a same-month row — answers the 400 duplicate-entry error. -/
theorem duplicate_insert_handling :
    (createCatchHandler .uniqueViolation = .duplicateEntry ∧
       (createCatchHandler .uniqueViolation).status = 400)
  ∧ (∀ e, e ≠ .uniqueViolation →
       createCatchHandler e = .serverError ∧ (createCatchHandler e).status = 500)
  ∧ (∀ stRead stIns req d, fieldsPresent req = true → ¬ req.bonusAmount < 100 →
       validEmployeeID req.employeeID = true → req.proposalDate = some d →
       monthConflicts stRead req.employeeID d = [] → nameConsistent stRead req = true →
       monthConflicts stIns req.employeeID d ≠ [] →
       createWith stRead stIns req = (.duplicateEntry, stIns) ∧
         CreateResult.duplicateEntry.status = 400) := by
  refine ⟨⟨rfl, rfl⟩, ?_, ?_⟩
  · intro e he
    cases e with
    | uniqueViolation => exact absurd rfl he
    | otherError => exact ⟨rfl, rfl⟩
  · intro stRead stIns req d h1 h2 h3 hd hm hnc hIns
    refine ⟨?_, rfl⟩
    rw [createWith_insert stRead stIns req d h1 h2 h3 hd hm hnc,
        insertStep_duplicate stIns req d h3 h2 hIns]

/-- C6 witness: a non-unique-violation error maps to 500, and a concrete
raced create — pre-check against the seeded store, INSERT against a store
that already holds an ATS0789 June 2025 row — answers duplicate-entry. -/
theorem duplicate_insert_handling_witness :
    (createCatchHandler .otherError).status = 500 ∧
    createWith seedStore
      ⟨[⟨3, "New Person", "ATS0789", ⟨2025, 6, 5⟩, 500, "sprint work"⟩], 4⟩
      ⟨"New Person", "ATS0789", some ⟨2025, 6, 20⟩, 300, "more work"⟩ =
      (.duplicateEntry, ⟨[⟨3, "New Person", "ATS0789", ⟨2025, 6, 5⟩, 500, "sprint work"⟩], 4⟩) :=
  ⟨(duplicate_insert_handling.2.1 .otherError (by decide)).2,
   (duplicate_insert_handling.2.2 seedStore
      ⟨[⟨3, "New Person", "ATS0789", ⟨2025, 6, 5⟩, 500, "sprint work"⟩], 4⟩
      ⟨"New Person", "ATS0789", some ⟨2025, 6, 20⟩, 300, "more work"⟩ ⟨2025, 6, 20⟩
      (by decide) (by decide) (by decide) rfl (by decide) (by decide) (by decide)).1⟩

/-- C7: a search without a (truthy) employeeID answers the 400 missing-id
error with a result independent of the store contents, and a search whose
employeeID matches no stored proposal answers the 404 not-found error. -/
theorem search_error_cases :
    (∀ st st2 : Store, ∀ eidO nmO : Option String, strTruthy eidO = false →
       search st eidO nmO = .missingID ∧ (search st eidO nmO).status = 400 ∧
       search st eidO nmO = search st2 eidO nmO)
  ∧ (∀ st : Store, ∀ eid : String, ∀ nmO : Option String, strTruthy (some eid) = true →
       st.proposals.filter (fun p => p.employee_id == eid) = [] →
       search st (some eid) nmO = .notFound ∧ (search st (some eid) nmO).status = 404) := by
  constructor
  · intro st st2 eidO nmO h
    refine ⟨search_missingID st _ _ h, ?_, ?_⟩
    · rw [search_missingID st _ _ h]; rfl
    · rw [search_missingID st _ _ h, search_missingID st2 _ _ h]
  · intro st eid nmO he hf
    have hr : searchRows st eid = [] := by
      unfold searchRows
      rw [hf]
      rfl
    refine ⟨search_notFound st _ nmO he hr, ?_⟩
    rw [search_notFound st _ nmO he hr]; rfl

/-- C7 witness: an absent employeeID answers missing-id on the seeded store,
and ATS0999 — matching no seeded row — answers not-found. -/
theorem search_error_cases_witness :
    search seedStore none (some "Veera Raghava") = .missingID ∧
    search seedStore (some "ATS0999") none = .notFound :=
  ⟨(search_error_cases.1 seedStore seedStore none (some "Veera Raghava") (by decide)).1,
   (search_error_cases.2 seedStore "ATS0999" none (by decide) (by decide)).1⟩

/-- C8: when a search supplies an employeeName and some returned row's
stored name differs case-insensitively, the whole request fails with the
400 mismatch error whose correctName is the stored name of the first row —
the most recent by proposal_date — rather than returning a filtered list;
when the name matches every row case-insensitively, or is omitted, the full
list of the employee's proposals is returned, a permutation of the stored
rows for that employee in descending proposal_date order. -/
theorem search_name_consistency (st : Store) (eid nm : String) (r0 : Proposal)
    (rs : List Proposal) (he : eid ≠ "") (hr : searchRows st eid = r0 :: rs) :
    ((∃ r ∈ r0 :: rs, lcEq r.employee_name nm = false) → nm ≠ "" →
       search st (some eid) (some nm) = .nameMismatch r0.employee_name ∧
       (∀ r ∈ r0 :: rs, dateLe r.proposal_date r0.proposal_date = true))
  ∧ ((∀ r ∈ r0 :: rs, lcEq r.employee_name nm = true) →
       search st (some eid) (some nm) = .ok (r0 :: rs))
  ∧ search st (some eid) none = .ok (r0 :: rs)
  ∧ List.Perm (r0 :: rs) (st.proposals.filter (fun p => p.employee_id == eid))
  ∧ DescSorted (r0 :: rs) := by
  have he' : strTruthy (some eid) = true := by
    simp only [strTruthy, bne_iff_ne, ne_eq, decide_eq_true_eq]
    exact he
  have hsorted : DescSorted (r0 :: rs) := by
    rw [← hr]; exact searchRows_sorted st eid
  refine ⟨?_, ?_, ?_, ?_, hsorted⟩
  · rintro ⟨r, hrmem, hrf⟩ hnm
    have hn' : strTruthy (some nm) = true := by
      simp only [strTruthy, bne_iff_ne, ne_eq, decide_eq_true_eq]
      exact hnm
    have hmem : r ∈ (r0 :: rs).filter (fun r => !lcEq r.employee_name nm) :=
      List.mem_filter.mpr ⟨hrmem, by rw [hrf]; rfl⟩
    have hmm : ((r0 :: rs).filter (fun r => !lcEq r.employee_name nm)).isEmpty = false := by
      cases hl : (r0 :: rs).filter (fun r => !lcEq r.employee_name nm) with
      | nil => rw [hl] at hmem; cases hmem
      | cons x xs => rfl
    refine ⟨search_mismatch st (some eid) (some nm) r0 rs he' hr hn' hmm, ?_⟩
    intro r' hrm
    rcases List.mem_cons.mp hrm with heq2 | hmem2
    · rw [heq2]; exact dateLe_refl _
    · unfold DescSorted at hsorted
      rw [List.pairwise_cons] at hsorted
      exact hsorted.1 r' hmem2
  · intro hall
    by_cases hnm : nm = ""
    · subst hnm
      exact search_ok_noName st (some eid) (some "") r0 rs he' hr (by decide)
    · have hn' : strTruthy (some nm) = true := by
        simp only [strTruthy, bne_iff_ne, ne_eq, decide_eq_true_eq]
        exact hnm
      have hnil : (r0 :: rs).filter (fun r => !lcEq r.employee_name nm) = [] := by
        apply List.filter_eq_nil_iff.mpr
        intro a ha
        simp [hall a ha]
      have hmm : ((r0 :: rs).filter (fun r => !lcEq r.employee_name nm)).isEmpty = true := by
        rw [hnil]; rfl
      exact search_ok_matched st (some eid) (some nm) r0 rs he' hr hn' hmm
  · exact search_ok_noName st (some eid) none r0 rs he' hr rfl
  · rw [← hr]; exact searchRows_perm st eid

/-- C8 witness: a wrong name against ATS0123 aborts with the stored name of
the most recent row, a case-different spelling of the right name is
accepted, and omitting the name returns the full list. -/
theorem search_name_consistency_witness :
    search seedStore (some "ATS0123") (some "Wrong Name") = .nameMismatch "Veera Raghava" ∧
    search seedStore (some "ATS0123") (some "veera raghava") = .ok [seedRow1] ∧
    search seedStore (some "ATS0123") none = .ok [seedRow1] :=
  ⟨((search_name_consistency seedStore "ATS0123" "Wrong Name" seedRow1 [] (by decide)
      (by decide)).1 ⟨seedRow1, by decide, by decide⟩ (by decide)).1,
   (search_name_consistency seedStore "ATS0123" "veera raghava" seedRow1 [] (by decide)
      (by decide)).2.1 (by decide),
   (search_name_consistency seedStore "ATS0123" "anything" seedRow1 [] (by decide)
      (by decide)).2.2.1⟩

/-- C10 counterexample: a create with bonusAmount -5 (all fields present)
produces the amount-specific error, although -5 is not strictly between 0
and 100, refuting the claim that the amount-specific error is produced only
for amounts in that open interval. -/
theorem zero_amount_cex :
    (create seedStore ⟨"New Person", "ATS0789", some ⟨2025, 6, 1⟩, -5, "hard work"⟩).1 =
      .amountTooLow ∧
    ¬(0 < (-5 : Int) ∧ (-5 : Int) < 100) :=
  ⟨by decide, by decide⟩

/-- C10 (amended): a create with bonusAmount 0 (a falsy field value) is
rejected by the field-presence check with the fields-required error, not by
the minimum-amount check; the amount-specific error is produced exactly for
requests that pass the presence check — so with a nonzero amount — whose
amount is below 100, negative amounts included. -/
theorem zero_amount_presence (st : Store) (req : CreateReq) :
    (req.bonusAmount = 0 → create st req = (.fieldsRequired, st))
  ∧ ((create st req).1 = .amountTooLow ↔
      fieldsPresent req = true ∧ req.bonusAmount < 100) := by
  constructor
  · intro h0
    have hf : fieldsPresent req = false := by
      unfold fieldsPresent
      simp [h0]
    exact createWith_fieldsMissing st st req hf
  · exact create_fst_amountTooLow_iff st req

/-- C10 witness: amount 0 answers the fields-required error and amount -5
answers the amount-specific error, at concrete requests against the seeded
store. -/
theorem zero_amount_presence_witness :
    create seedStore ⟨"New Person", "ATS0789", some ⟨2025, 6, 1⟩, 0, "zero pay"⟩ =
      (.fieldsRequired, seedStore) ∧
    (create seedStore ⟨"New Person", "ATS0789", some ⟨2025, 6, 1⟩, -5, "low pay"⟩).1 =
      .amountTooLow :=
  ⟨(zero_amount_presence seedStore _).1 rfl,
   (zero_amount_presence seedStore _).2.mpr ⟨by decide, by decide⟩⟩
